import Mathlib

/-!
Shallow embedding of the DevAnoTector risk core (backend/src/index.ts):
the weighted risk model `simulate`, the input resolver `buildInputs`, and
the sweep loop of the `/simulate/sweep` route.  JavaScript numbers are
modelled as real numbers; `Number(x.toFixed(2))` is modelled by `round2`
(round half up to two decimals, which agrees with JavaScript's
round-half-away-from-zero on the nonnegative values produced here).
-/

namespace DevAnoTector

/-- Status band of a simulation result ("GREEN" | "AMBER" | "RED"). -/
inductive Status where
  | GREEN
  | AMBER
  | RED
deriving DecidableEq

/-- Resolved input vector (type `Inputs` in index.ts): all four fields present. -/
structure Inputs where
  coilOffsetDeg : ℝ
  chargeRateC : ℝ
  tempC : ℝ
  load_mA : ℝ

/-- Per-patient sensitivity factors (type `Factors`), each field optional. -/
structure Factors where
  misalign : Option ℝ
  rate : Option ℝ
  temp : Option ℝ
  load : Option ℝ

/-- The weight quadruple `w` used inside `simulate`. -/
structure Weights where
  misalign : ℝ
  rate : ℝ
  temp : ℝ
  load : ℝ

/-- The `telemetry` object of a result. -/
structure Telemetry where
  efficiency : ℝ

/-- One entry of the `rationale` array.  The source builds formatted strings;
we keep the numeric payload of each line (values printed with `toFixed(2)`
are stored already rounded), which preserves identity and order of lines. -/
inductive RationaleLine where
  | misalignLine (coilOffsetDeg efficiency2dp : ℝ)
  | chargeLine (chargeRateC tempC load_mA : ℝ)
  | weightsLine (misalign2dp rate2dp temp2dp load2dp : ℝ)

/-- The JSON value returned by `simulate`. -/
structure RiskResult where
  status : Status
  score : ℝ
  telemetry : Telemetry
  rationale : List RationaleLine

noncomputable section

/-- Rounding to two decimals: the model of `Number(x.toFixed(2))`. -/
def round2 (x : ℝ) : ℝ := (round (100 * x) : ℤ) / 100

/-- Line `const theta = (Math.PI / 180) * coilOffsetDeg`. -/
def theta (i : Inputs) : ℝ := Real.pi / 180 * i.coilOffsetDeg

/-- Line `const efficiency = Math.max(0, Math.cos(theta))`. -/
def efficiencyOf (i : Inputs) : ℝ := max 0 (Real.cos (theta i))

/-- Line `const misalignRisk = 1 - efficiency`. -/
def misalignRisk (i : Inputs) : ℝ := 1 - efficiencyOf i

/-- Line `const rateRisk = Math.max(0, chargeRateC - 1)`. -/
def rateRisk (i : Inputs) : ℝ := max 0 (i.chargeRateC - 1)

/-- Line `const tempRisk = Math.max(0, (tempC - 37) / 23)`. -/
def tempRisk (i : Inputs) : ℝ := max 0 ((i.tempC - 37) / 23)

/-- Line `const loadRisk = Math.min(1, load_mA / 500)`. -/
def loadRisk (i : Inputs) : ℝ := min 1 (i.load_mA / 500)

/-- Base weights `let w = { misalign: 0.45, rate: 0.25, temp: 0.20, load: 0.10 }`. -/
def baseWeights : Weights := ⟨0.45, 0.25, 0.20, 0.10⟩

/-- The divisor `s = w.misalign + w.rate + w.temp + w.load` computed after the
factor multiplications (absent factor fields default to 1 via `?? 1`). -/
def factorWeightSum (f : Factors) : ℝ :=
  0.45 * f.misalign.getD 1 + 0.25 * f.rate.getD 1 +
    0.20 * f.temp.getD 1 + 0.10 * f.load.getD 1

/-- The `if (factors)` branch of `simulate`: multiply each base weight by its
factor (default 1) and divide by the sum `s`. -/
def applyFactors (f : Factors) : Weights :=
  ⟨0.45 * f.misalign.getD 1 / factorWeightSum f,
   0.25 * f.rate.getD 1 / factorWeightSum f,
   0.20 * f.temp.getD 1 / factorWeightSum f,
   0.10 * f.load.getD 1 / factorWeightSum f⟩

/-- The effective weights `w` after the optional factor block. -/
def effWeights : Option Factors → Weights
  | none => baseWeights
  | some f => applyFactors f

/-- Line `const score = w.misalign*misalignRisk + w.rate*rateRisk +
w.temp*tempRisk + w.load*loadRisk`, before rounding. -/
def rawScore (i : Inputs) (fo : Option Factors) : ℝ :=
  (effWeights fo).misalign * misalignRisk i + (effWeights fo).rate * rateRisk i +
    (effWeights fo).temp * tempRisk i + (effWeights fo).load * loadRisk i

/-- Status bands: `if (score >= 0.65) RED else if (score >= 0.35) AMBER else GREEN`,
applied to the unrounded score. -/
def statusOf (score : ℝ) : Status :=
  if score ≥ 0.65 then .RED else if score ≥ 0.35 then .AMBER else .GREEN

/-- The `rationale` array: misalignment line, then charge/temp/load line, then
the weights line only when factors were supplied. -/
def rationaleOf (i : Inputs) (fo : Option Factors) : List RationaleLine :=
  [.misalignLine i.coilOffsetDeg (round2 (efficiencyOf i)),
   .chargeLine i.chargeRateC i.tempC i.load_mA] ++
    (match fo with
     | some _ => [.weightsLine (round2 (effWeights fo).misalign)
         (round2 (effWeights fo).rate) (round2 (effWeights fo).temp)
         (round2 (effWeights fo).load)]
     | none => [])

/-- The function `simulate(inputs, factors?)` of index.ts. -/
def simulate (i : Inputs) (fo : Option Factors) : RiskResult :=
  { status := statusOf (rawScore i fo)
    score := round2 (rawScore i fo)
    telemetry := ⟨round2 (efficiencyOf i)⟩
    rationale := rationaleOf i fo }

/-- A patient record as used by `buildInputs`: an id, a full baseline input
vector, and optional factors. -/
structure Patient where
  id : String
  baseline : Inputs
  factors : Option Factors

/-- The hardcoded system default
`{ coilOffsetDeg: 5, chargeRateC: 1, tempC: 37, load_mA: 200 }`. -/
def systemDefault : Inputs := ⟨5, 1, 37, 200⟩

/-- The parsed request body for `/simulate`: optional patient id and optional
per-field overrides. -/
structure SimBody where
  patientId : Option String
  coilOffsetDeg : Option ℝ
  chargeRateC : Option ℝ
  tempC : Option ℝ
  load_mA : Option ℝ

/-- The `base` computed by `buildInputs`: start from `systemDefault`; when a
patient id was supplied and found, the spread `{ ...base, ...p.baseline }`
replaces every field because a baseline always has all four fields. -/
def lookupBase (list : List Patient) (body : SimBody) : Inputs :=
  match body.patientId with
  | some pid =>
    match list.find? (fun p => p.id == pid) with
    | some p => p.baseline
    | none => systemDefault
  | none => systemDefault

/-- The function `buildInputs` of index.ts: per-field `body.x ?? base.x`. -/
def buildInputs (list : List Patient) (body : SimBody) : Inputs :=
  ⟨body.coilOffsetDeg.getD (lookupBase list body).coilOffsetDeg,
   body.chargeRateC.getD (lookupBase list body).chargeRateC,
   body.tempC.getD (lookupBase list body).tempC,
   body.load_mA.getD (lookupBase list body).load_mA⟩

/-- Sweep boundary clamp `const from = Math.max(0, Number(body.from ?? 0))`. -/
def clampFrom (lo? : Option ℝ) : ℝ := max 0 (lo?.getD 0)

/-- Sweep boundary clamp `const to = Math.max(from, Number(body.to ?? 20))`. -/
def clampTo (lo : ℝ) (hi? : Option ℝ) : ℝ := max lo (hi?.getD 20)

/-- Sweep boundary clamp `const step = stepRaw > 0 ? stepRaw : 1` with
`stepRaw = Number(body.step ?? 1)`. -/
def clampStep (step? : Option ℝ) : ℝ :=
  if step?.getD 1 > 0 then step?.getD 1 else 1

/-- Values taken by `deg` in the loop `for (let deg = from; deg <= to; deg += step)`
in exact real arithmetic: after n additions of `step`, `deg = lo + n * step`,
and the loop runs while `deg <= hi`, i.e. for n = 0, ..., ⌊(hi - lo) / step⌋. -/
def sweepDegs (lo hi step : ℝ) : List ℝ :=
  if lo ≤ hi then
    (List.range (⌊(hi - lo) / step⌋₊ + 1)).map (fun n : ℕ => lo + (n : ℝ) * step)
  else []

/-- The sweep loop body: each iteration pushes
`{ deg, score: simulate({ ...inputsBase, coilOffsetDeg: deg }, factors).score }`. -/
def computeSweep (base : Inputs) (fo : Option Factors) (lo hi step : ℝ) :
    List (ℝ × ℝ) :=
  (sweepDegs lo hi step).map
    (fun v => (v, (simulate { base with coilOffsetDeg := v } fo).score))

/-- Option-valued model of `simulate` that makes the implicit failure of the
factor block explicit: when the divisor `s` is zero, the JavaScript divisions
yield NaN, which poisons every weight and the score; we model that outcome as
`none`. -/
def simulateChecked (i : Inputs) (fo : Option Factors) : Option RiskResult :=
  match fo with
  | some f => if factorWeightSum f = 0 then none else some (simulate i (some f))
  | none => some (simulate i none)

/-- Validity of a resolved input vector, the documented ranges enforced by
`InputSchema` at the request boundary. -/
def ValidInputs (i : Inputs) : Prop :=
  0 ≤ i.coilOffsetDeg ∧ i.coilOffsetDeg ≤ 30 ∧
    0.2 ≤ i.chargeRateC ∧ i.chargeRateC ≤ 2 ∧
    15 ≤ i.tempC ∧ i.tempC ≤ 60 ∧
    0 ≤ i.load_mA ∧ i.load_mA ≤ 500

/-- Factors are absent or carry only positive multipliers (absent fields
default to the multiplier 1). -/
def PosFactors (fo : Option Factors) : Prop :=
  ∀ f ∈ fo, 0 < f.misalign.getD 1 ∧ 0 < f.rate.getD 1 ∧
    0 < f.temp.getD 1 ∧ 0 < f.load.getD 1

end

lemma round2_bounds {x : ℝ} (h0 : 0 ≤ x) (h1 : x ≤ 1) :
    0 ≤ round2 x ∧ round2 x ≤ 1 := by
  unfold round2
  constructor
  · apply div_nonneg _ (by norm_num)
    have h : (0 : ℤ) ≤ round (100 * x) := by
      rw [round_eq]
      exact Int.le_floor.mpr (by norm_num; linarith)
    exact_mod_cast h
  · rw [div_le_one (by norm_num)]
    have h : round (100 * x) ≤ 100 := by
      rw [round_eq]
      have h2 : ⌊100 * x + 1 / 2⌋ < 101 := Int.floor_lt.mpr (by norm_num; linarith)
      omega
    exact_mod_cast h

lemma round2_eq_of {x : ℝ} {k : ℤ} (h1 : (k : ℝ) ≤ 100 * x + 1 / 2)
    (h2 : 100 * x + 1 / 2 < k + 1) : round2 x = k / 100 := by
  unfold round2
  rw [round_eq, Int.floor_eq_iff.mpr ⟨h1, by exact_mod_cast h2⟩]

lemma efficiencyOf_bounds (i : Inputs) : 0 ≤ efficiencyOf i ∧ efficiencyOf i ≤ 1 :=
  ⟨le_max_left 0 _, max_le (by norm_num) (Real.cos_le_one _)⟩

lemma risks_bounds (i : Inputs) (hi : ValidInputs i) :
    (0 ≤ misalignRisk i ∧ misalignRisk i ≤ 1) ∧
    (0 ≤ rateRisk i ∧ rateRisk i ≤ 1) ∧
    (0 ≤ tempRisk i ∧ tempRisk i ≤ 1) ∧
    (0 ≤ loadRisk i ∧ loadRisk i ≤ 1) := by
  obtain ⟨_, _, _, hc2, _, ht2, hl1, _⟩ := hi
  obtain ⟨he0, he1⟩ := efficiencyOf_bounds i
  refine ⟨⟨by unfold misalignRisk; linarith, by unfold misalignRisk; linarith⟩,
    ⟨le_max_left 0 _, max_le (by norm_num) (by linarith)⟩,
    ⟨le_max_left 0 _, max_le (by norm_num) ?_⟩,
    ⟨le_min (by norm_num) (div_nonneg hl1 (by norm_num)), min_le_left 1 _⟩⟩
  rw [div_le_one (by norm_num)]
  linarith

lemma effWeights_props (fo : Option Factors) (hf : PosFactors fo) :
    0 ≤ (effWeights fo).misalign ∧ 0 ≤ (effWeights fo).rate ∧
    0 ≤ (effWeights fo).temp ∧ 0 ≤ (effWeights fo).load ∧
    (effWeights fo).misalign + (effWeights fo).rate +
      (effWeights fo).temp + (effWeights fo).load = 1 := by
  cases fo with
  | none =>
    refine ⟨by norm_num [effWeights, baseWeights], by norm_num [effWeights, baseWeights],
      by norm_num [effWeights, baseWeights], by norm_num [effWeights, baseWeights],
      by norm_num [effWeights, baseWeights]⟩
  | some f =>
    obtain ⟨h1, h2, h3, h4⟩ := hf f rfl
    have hs : 0 < factorWeightSum f := by unfold factorWeightSum; nlinarith
    refine ⟨div_nonneg (by nlinarith) hs.le, div_nonneg (by nlinarith) hs.le,
      div_nonneg (by nlinarith) hs.le, div_nonneg (by nlinarith) hs.le, ?_⟩
    show 0.45 * f.misalign.getD 1 / factorWeightSum f +
      0.25 * f.rate.getD 1 / factorWeightSum f +
      0.20 * f.temp.getD 1 / factorWeightSum f +
      0.10 * f.load.getD 1 / factorWeightSum f = 1
    rw [div_add_div_same, div_add_div_same, div_add_div_same]
    have hrfl : 0.45 * f.misalign.getD 1 + 0.25 * f.rate.getD 1 +
        0.20 * f.temp.getD 1 + 0.10 * f.load.getD 1 = factorWeightSum f := rfl
    rw [hrfl, div_self hs.ne']

lemma rawScore_bounds (i : Inputs) (fo : Option Factors)
    (hi : ValidInputs i) (hf : PosFactors fo) :
    0 ≤ rawScore i fo ∧ rawScore i fo ≤ 1 := by
  obtain ⟨⟨a0, a1⟩, ⟨b0, b1⟩, ⟨c0, c1⟩, ⟨d0, d1⟩⟩ := risks_bounds i hi
  obtain ⟨w0, w1, w2, w3, wsum⟩ := effWeights_props fo hf
  unfold rawScore
  constructor
  · have := mul_nonneg w0 a0
    have := mul_nonneg w1 b0
    have := mul_nonneg w2 c0
    have := mul_nonneg w3 d0
    linarith
  · have := mul_le_of_le_one_right w0 a1
    have := mul_le_of_le_one_right w1 b1
    have := mul_le_of_le_one_right w2 c1
    have := mul_le_of_le_one_right w3 d1
    linarith

lemma efficiencyOf_coil_zero (i : Inputs) (h : i.coilOffsetDeg = 0) :
    efficiencyOf i = 1 := by
  unfold efficiencyOf theta
  rw [h, mul_zero, Real.cos_zero]
  exact max_eq_right zero_le_one

lemma rawScore_c2 : rawScore ⟨0, 1, 37, 200⟩ none = 0.04 := by
  have he : efficiencyOf ⟨0, 1, 37, 200⟩ = 1 := efficiencyOf_coil_zero _ rfl
  unfold rawScore misalignRisk rateRisk tempRisk loadRisk
  rw [he]
  norm_num [effWeights, baseWeights, max_def, min_def]

lemma score_c2 : (simulate ⟨0, 1, 37, 200⟩ none).score = 0.04 := by
  show round2 (rawScore ⟨0, 1, 37, 200⟩ none) = 0.04
  rw [rawScore_c2, @round2_eq_of 0.04 4 (by norm_num) (by norm_num)]
  norm_num

/-- C1: for every input vector inside the documented ranges and factors that
are absent or all positive multipliers, the result of `simulate` has a score
and a telemetry efficiency that are exactly the two-decimal roundings of the
raw score and raw efficiency, and both lie in the interval [0, 1]. -/
theorem C1_result_in_unit_interval (i : Inputs) (fo : Option Factors)
    (hi : ValidInputs i) (hf : PosFactors fo) :
    ((simulate i fo).score = round2 (rawScore i fo) ∧
      0 ≤ (simulate i fo).score ∧ (simulate i fo).score ≤ 1) ∧
    ((simulate i fo).telemetry.efficiency = round2 (efficiencyOf i) ∧
      0 ≤ (simulate i fo).telemetry.efficiency ∧
      (simulate i fo).telemetry.efficiency ≤ 1) := by
  obtain ⟨hs0, hs1⟩ := rawScore_bounds i fo hi hf
  obtain ⟨he0, he1⟩ := efficiencyOf_bounds i
  obtain ⟨hr0, hr1⟩ := round2_bounds hs0 hs1
  obtain ⟨hq0, hq1⟩ := round2_bounds he0 he1
  exact ⟨⟨rfl, hr0, hr1⟩, ⟨rfl, hq0, hq1⟩⟩

/-- Witness for C1 at concrete in-range inputs and positive factors. -/
theorem C1_result_in_unit_interval_witness :
    ValidInputs ⟨0, 1, 37, 200⟩ ∧
    PosFactors (some ⟨some 1, some 2, none, some (1 / 2)⟩) ∧
    0 ≤ (simulate ⟨0, 1, 37, 200⟩ (some ⟨some 1, some 2, none, some (1 / 2)⟩)).score ∧
    (simulate ⟨0, 1, 37, 200⟩ (some ⟨some 1, some 2, none, some (1 / 2)⟩)).score ≤ 1 := by
  have h1 : ValidInputs ⟨0, 1, 37, 200⟩ := by norm_num [ValidInputs]
  have h2 : PosFactors (some ⟨some 1, some 2, none, some (1 / 2)⟩) := by
    intro f hfm
    simp only [Option.mem_def, Option.some.injEq] at hfm
    subst hfm
    norm_num [Option.getD_some]
  obtain ⟨⟨_, hs0, hs1⟩, _⟩ := C1_result_in_unit_interval _ _ h1 h2
  exact ⟨h1, h2, hs0, hs1⟩

/-- C2 counterexample: at inputs coilOffsetDeg 0, chargeRateC 1, tempC 37,
load_mA 200 with no factors the returned score is 0.04 (load 200 mA yields
loadRisk 0.4 with weight 0.10), not 0.00 as the claim states. -/
theorem C2_counterexample :
    (simulate ⟨0, 1, 37, 200⟩ none).score = 0.04 ∧
    (simulate ⟨0, 1, 37, 200⟩ none).score ≠ 0 :=
  ⟨score_c2, by rw [score_c2]; norm_num⟩

/-- C2 amended: at those inputs `simulate` returns score 0.04, status GREEN
and telemetry efficiency 1.00. -/
theorem C2_amended_concrete :
    (simulate ⟨0, 1, 37, 200⟩ none).score = 0.04 ∧
    (simulate ⟨0, 1, 37, 200⟩ none).status = Status.GREEN ∧
    (simulate ⟨0, 1, 37, 200⟩ none).telemetry.efficiency = 1 := by
  refine ⟨score_c2, ?_, ?_⟩
  · show statusOf (rawScore ⟨0, 1, 37, 200⟩ none) = Status.GREEN
    rw [rawScore_c2]
    unfold statusOf
    rw [if_neg (by norm_num), if_neg (by norm_num)]
  · show round2 (efficiencyOf ⟨0, 1, 37, 200⟩) = 1
    rw [efficiencyOf_coil_zero _ rfl, @round2_eq_of 1 100 (by norm_num) (by norm_num)]
    norm_num

lemma rawScore_c3 : rawScore ⟨0, 1.99, 37, 500⟩ none = 0.3475 := by
  have he : efficiencyOf ⟨0, 1.99, 37, 500⟩ = 1 := efficiencyOf_coil_zero _ rfl
  unfold rawScore misalignRisk rateRisk tempRisk loadRisk
  rw [he]
  norm_num [effWeights, baseWeights, max_def, min_def]

/-- C3 counterexample: the valid input vector coilOffsetDeg 0,
chargeRateC 1.99, tempC 37, load_mA 500 with no factors has raw score 0.3475,
so the returned (rounded) score is 0.35 while the status is GREEN: a returned
score of 0.35 does not give AMBER, refuting the claim that the bands are
determined by the returned score. -/
theorem C3_counterexample :
    ValidInputs ⟨0, 1.99, 37, 500⟩ ∧
    (simulate ⟨0, 1.99, 37, 500⟩ none).score = 0.35 ∧
    (simulate ⟨0, 1.99, 37, 500⟩ none).status = Status.GREEN ∧
    (simulate ⟨0, 1.99, 37, 500⟩ none).status ≠ Status.AMBER := by
  have hst : (simulate ⟨0, 1.99, 37, 500⟩ none).status = Status.GREEN := by
    show statusOf (rawScore ⟨0, 1.99, 37, 500⟩ none) = Status.GREEN
    rw [rawScore_c3]
    unfold statusOf
    rw [if_neg (by norm_num), if_neg (by norm_num)]
  refine ⟨by norm_num [ValidInputs], ?_, hst, by rw [hst]; simp⟩
  show round2 (rawScore ⟨0, 1.99, 37, 500⟩ none) = 0.35
  rw [rawScore_c3, @round2_eq_of 0.3475 35 (by norm_num) (by norm_num)]
  norm_num

/-- C3 amended: the status bands are applied to the unrounded score:
RED iff raw score is at least 0.65, AMBER iff raw score is in [0.35, 0.65),
GREEN iff raw score is below 0.35 (lower edges inclusive). -/
theorem C3_status_bands_of_raw_score (i : Inputs) (fo : Option Factors) :
    ((simulate i fo).status = Status.RED ↔ 0.65 ≤ rawScore i fo) ∧
    ((simulate i fo).status = Status.AMBER ↔
      0.35 ≤ rawScore i fo ∧ rawScore i fo < 0.65) ∧
    ((simulate i fo).status = Status.GREEN ↔ rawScore i fo < 0.35) := by
  have hst : (simulate i fo).status = statusOf (rawScore i fo) := rfl
  rw [hst]
  unfold statusOf
  split_ifs with h1 h2
  · exact ⟨iff_of_true rfl h1,
      iff_of_false (by simp) (fun hc => absurd h1 (not_le.mpr hc.2)),
      iff_of_false (by simp) (fun hc => absurd h1 (not_le.mpr (by linarith)))⟩
  · exact ⟨iff_of_false (by simp) h1,
      iff_of_true rfl ⟨h2, not_le.mp h1⟩,
      iff_of_false (by simp) (fun hc => absurd h2 (not_le.mpr hc))⟩
  · exact ⟨iff_of_false (by simp) h1,
      iff_of_false (by simp) (fun hc => h2 hc.1),
      iff_of_true rfl (not_le.mp h2)⟩

/-- C4: the base weights 0.45, 0.25, 0.20, 0.10 sum to 1, and for any factors
whose supplied multipliers are positive (absent entries defaulting to 1) the
four weights produced by the factor block sum to exactly 1 after
renormalization. -/
theorem C4_weights_sum_one :
    baseWeights.misalign + baseWeights.rate + baseWeights.temp +
      baseWeights.load = 1 ∧
    ∀ f : Factors, 0 < f.misalign.getD 1 → 0 < f.rate.getD 1 →
      0 < f.temp.getD 1 → 0 < f.load.getD 1 →
      (applyFactors f).misalign + (applyFactors f).rate + (applyFactors f).temp +
        (applyFactors f).load = 1 := by
  constructor
  · norm_num [baseWeights]
  · intro f h1 h2 h3 h4
    have hp : PosFactors (some f) := by
      intro g hg
      simp only [Option.mem_def, Option.some.injEq] at hg
      subst hg
      exact ⟨h1, h2, h3, h4⟩
    exact (effWeights_props (some f) hp).2.2.2.2

/-- Witness for C4 at concrete positive factors. -/
theorem C4_weights_sum_one_witness :
    (applyFactors ⟨some 2, none, some (1 / 2), some 3⟩).misalign +
      (applyFactors ⟨some 2, none, some (1 / 2), some 3⟩).rate +
      (applyFactors ⟨some 2, none, some (1 / 2), some 3⟩).temp +
      (applyFactors ⟨some 2, none, some (1 / 2), some 3⟩).load = 1 :=
  C4_weights_sum_one.2 ⟨some 2, none, some (1 / 2), some 3⟩
    (by norm_num [Option.getD_some]) (by norm_num [Option.getD_none])
    (by norm_num [Option.getD_some]) (by norm_num [Option.getD_some])

/-- C9: `simulate` is deterministic: two calls with equal inputs and equal
factors agree on status, score, telemetry efficiency and the full rationale
list. -/
theorem C9_simulate_deterministic (i₁ i₂ : Inputs) (fo₁ fo₂ : Option Factors)
    (hi : i₁ = i₂) (hf : fo₁ = fo₂) :
    (simulate i₁ fo₁).status = (simulate i₂ fo₂).status ∧
    (simulate i₁ fo₁).score = (simulate i₂ fo₂).score ∧
    (simulate i₁ fo₁).telemetry.efficiency = (simulate i₂ fo₂).telemetry.efficiency ∧
    (simulate i₁ fo₁).rationale = (simulate i₂ fo₂).rationale := by
  subst hi
  subst hf
  exact ⟨rfl, rfl, rfl, rfl⟩

/-- Witness for C9 at a concrete repeated call. -/
theorem C9_simulate_deterministic_witness :
    (simulate ⟨5, 1, 37, 200⟩ none).status = (simulate ⟨5, 1, 37, 200⟩ none).status ∧
    (simulate ⟨5, 1, 37, 200⟩ none).score = (simulate ⟨5, 1, 37, 200⟩ none).score ∧
    (simulate ⟨5, 1, 37, 200⟩ none).telemetry.efficiency =
      (simulate ⟨5, 1, 37, 200⟩ none).telemetry.efficiency ∧
    (simulate ⟨5, 1, 37, 200⟩ none).rationale = (simulate ⟨5, 1, 37, 200⟩ none).rationale :=
  C9_simulate_deterministic ⟨5, 1, 37, 200⟩ ⟨5, 1, 37, 200⟩ none none rfl rfl

/-- C10: with all four factor multipliers supplied as 0 the divisor computed
by the factor block is 0; the renormalized weights then no longer sum to 1,
and the checked model of `simulate` (which returns none exactly where the
JavaScript divisions produce NaN) yields no real-valued score at all, for
every input vector. -/
theorem C10_zero_factors_unguarded :
    factorWeightSum ⟨some 0, some 0, some 0, some 0⟩ = 0 ∧
    (effWeights (some ⟨some 0, some 0, some 0, some 0⟩)).misalign +
      (effWeights (some ⟨some 0, some 0, some 0, some 0⟩)).rate +
      (effWeights (some ⟨some 0, some 0, some 0, some 0⟩)).temp +
      (effWeights (some ⟨some 0, some 0, some 0, some 0⟩)).load ≠ 1 ∧
    ∀ i : Inputs, simulateChecked i (some ⟨some 0, some 0, some 0, some 0⟩) = none := by
  have h : factorWeightSum ⟨some 0, some 0, some 0, some 0⟩ = 0 := by
    norm_num [factorWeightSum, Option.getD_some]
  refine ⟨h, ?_, fun i => ?_⟩
  · norm_num [effWeights, applyFactors, h, Option.getD_some]
  · simp [simulateChecked, h]

/-- C5: input resolution merges each field independently with precedence
system default < found baseline < explicit override: an explicit override
always wins; with a found patient and no override a field resolves to the
patient's baseline; with patient not found, or no patient id, a field without
override resolves to the system default 5 / 1 / 37 / 200. -/
theorem C5_input_resolution (list : List Patient) (body : SimBody) :
    (∀ v, body.coilOffsetDeg = some v → (buildInputs list body).coilOffsetDeg = v) ∧
    (∀ pid p, body.patientId = some pid →
      list.find? (fun q => q.id == pid) = some p →
      buildInputs list body = ⟨body.coilOffsetDeg.getD p.baseline.coilOffsetDeg,
        body.chargeRateC.getD p.baseline.chargeRateC,
        body.tempC.getD p.baseline.tempC,
        body.load_mA.getD p.baseline.load_mA⟩) ∧
    (∀ pid, body.patientId = some pid →
      list.find? (fun q => q.id == pid) = none →
      buildInputs list body = ⟨body.coilOffsetDeg.getD 5, body.chargeRateC.getD 1,
        body.tempC.getD 37, body.load_mA.getD 200⟩) ∧
    (body.patientId = none →
      buildInputs list body = ⟨body.coilOffsetDeg.getD 5, body.chargeRateC.getD 1,
        body.tempC.getD 37, body.load_mA.getD 200⟩) := by
  refine ⟨fun v hv => ?_, fun pid p hp hfind => ?_, fun pid hp hfind => ?_, fun hp => ?_⟩
  · simp [buildInputs, hv]
  · simp [buildInputs, lookupBase, hp, hfind]
  · simp [buildInputs, lookupBase, hp, hfind, systemDefault]
  · simp [buildInputs, lookupBase, hp, systemDefault]

/-- Witness for C5: a found patient baseline fills the unoverridden fields
and the explicit coil-offset override wins. -/
theorem C5_input_resolution_witness :
    buildInputs [⟨"p1", ⟨10, 1.2, 38, 250⟩, none⟩]
      ⟨some "p1", some 15, none, none, none⟩ = ⟨15, 1.2, 38, 250⟩ := by
  have hfind : List.find? (fun q : Patient => q.id == "p1")
      [⟨"p1", ⟨10, 1.2, 38, 250⟩, none⟩] =
      some ⟨"p1", ⟨10, 1.2, 38, 250⟩, none⟩ := by
    simp [List.find?]
  have h := (C5_input_resolution [⟨"p1", ⟨10, 1.2, 38, 250⟩, none⟩]
    ⟨some "p1", some 15, none, none, none⟩).2.1 "p1" ⟨"p1", ⟨10, 1.2, 38, 250⟩, none⟩
    rfl hfind
  simpa using h

lemma computeSweep_map_fst (b : Inputs) (fo : Option Factors) (lo hi s : ℝ) :
    (computeSweep b fo lo hi s).map Prod.fst = sweepDegs lo hi s := by
  unfold computeSweep
  rw [List.map_map]
  exact List.map_id _

/-- C6: the sweep with from 0, to 20, step 1 visits exactly the independent
values 0, 1, ..., 20 in order, and in general (for positive step) the sweep
points are strictly increasing in the independent value and each point's
score is the score of `simulate` at the base inputs with coilOffsetDeg
replaced by that value. -/
theorem C6_sweep_monotone_points :
    (∀ base : Inputs, (computeSweep base none 0 20 1).map Prod.fst =
      (List.range 21).map (Nat.cast : ℕ → ℝ)) ∧
    (∀ (base : Inputs) (fo : Option Factors) (lo hi s : ℝ), 0 < s →
      ((computeSweep base fo lo hi s).map Prod.fst).Pairwise (· < ·) ∧
      ∀ p ∈ computeSweep base fo lo hi s,
        p.2 = (simulate { base with coilOffsetDeg := p.1 } fo).score) := by
  constructor
  · intro base
    rw [computeSweep_map_fst]
    unfold sweepDegs
    rw [if_pos (by norm_num : (0:ℝ) ≤ 20)]
    rw [show ((20:ℝ) - 0) / 1 = ((20:ℕ):ℝ) by norm_num, Nat.floor_natCast]
    simp
  · intro base fo lo hi s hs
    constructor
    · rw [computeSweep_map_fst]
      unfold sweepDegs
      split_ifs with hle
      · apply List.Pairwise.map (fun n : ℕ => lo + (n : ℝ) * s) ?_
          (List.pairwise_lt_range _)
        intro a b hab
        show lo + (a : ℝ) * s < lo + (b : ℝ) * s
        have hcast : (a : ℝ) < (b : ℝ) := by exact_mod_cast hab
        have := mul_lt_mul_of_pos_right hcast hs
        linarith
      · simp
    · intro p hp
      obtain ⟨v, hv, rfl⟩ := List.mem_map.1 hp
      rfl

/-- Witness for C6's general part at step 1 over [0, 20]. -/
theorem C6_sweep_monotone_points_witness :
    (0:ℝ) < 1 ∧
    ((computeSweep ⟨5, 1, 37, 200⟩ none 0 20 1).map Prod.fst).Pairwise (· < ·) ∧
    ∀ p ∈ computeSweep ⟨5, 1, 37, 200⟩ none 0 20 1,
      p.2 = (simulate { Inputs.mk 5 1 37 200 with coilOffsetDeg := p.1 } none).score :=
  ⟨by norm_num,
    (C6_sweep_monotone_points.2 ⟨5, 1, 37, 200⟩ none 0 20 1 (by norm_num)).1,
    (C6_sweep_monotone_points.2 ⟨5, 1, 37, 200⟩ none 0 20 1 (by norm_num)).2⟩

/-- C7: the sweep boundary clamps from to at least 0, replaces a to below
from by from, replaces an absent or non-positive step by 1, and after
clamping the sweep curve is never empty. -/
theorem C7_sweep_clamping (lo? hi? step? : Option ℝ) (base : Inputs)
    (fo : Option Factors) :
    0 ≤ clampFrom lo? ∧
    clampFrom lo? ≤ clampTo (clampFrom lo?) hi? ∧
    (hi?.getD 20 < clampFrom lo? → clampTo (clampFrom lo?) hi? = clampFrom lo?) ∧
    0 < clampStep step? ∧
    (step?.getD 1 ≤ 0 → clampStep step? = 1) ∧
    (step? = none → clampStep step? = 1) ∧
    computeSweep base fo (clampFrom lo?) (clampTo (clampFrom lo?) hi?)
      (clampStep step?) ≠ [] := by
  have h0 : 0 ≤ clampFrom lo? := le_max_left 0 _
  have hle : clampFrom lo? ≤ clampTo (clampFrom lo?) hi? := le_max_left _ _
  have hstep : 0 < clampStep step? := by
    unfold clampStep
    split_ifs with h
    · exact h
    · norm_num
  refine ⟨h0, hle, fun h => max_eq_left h.le, hstep, fun h => ?_, fun h => ?_, ?_⟩
  · unfold clampStep
    rw [if_neg (not_lt.mpr h)]
  · subst h
    simp [clampStep]
  · intro hcontra
    have hlen : (computeSweep base fo (clampFrom lo?) (clampTo (clampFrom lo?) hi?)
        (clampStep step?)).length =
        ⌊(clampTo (clampFrom lo?) hi? - clampFrom lo?) / clampStep step?⌋₊ + 1 := by
      unfold computeSweep sweepDegs
      rw [if_pos hle]
      simp only [List.length_map, List.length_range]
    rw [hcontra] at hlen
    simp at hlen

lemma sqrt3_bounds : 1.73 < Real.sqrt 3 ∧ Real.sqrt 3 < 1.74 := by
  have h3 : Real.sqrt 3 ^ 2 = 3 := Real.sq_sqrt (by norm_num)
  have h0 : (0 : ℝ) ≤ Real.sqrt 3 := Real.sqrt_nonneg 3
  constructor <;> nlinarith

lemma efficiencyOf_c8 : efficiencyOf ⟨30, 2, 60, 500⟩ = Real.sqrt 3 / 2 := by
  unfold efficiencyOf theta
  rw [show Real.pi / 180 * (Inputs.mk 30 2 60 500).coilOffsetDeg = Real.pi / 6 by
    show Real.pi / 180 * 30 = Real.pi / 6
    ring]
  rw [Real.cos_pi_div_six]
  exact max_eq_right (by positivity)

lemma rawScore_c8 : rawScore ⟨30, 2, 60, 500⟩ none = 1 - 0.225 * Real.sqrt 3 := by
  unfold rawScore misalignRisk rateRisk tempRisk loadRisk
  rw [efficiencyOf_c8]
  show baseWeights.misalign * (1 - Real.sqrt 3 / 2) +
    baseWeights.rate * max 0 ((2 : ℝ) - 1) +
    baseWeights.temp * max 0 (((60 : ℝ) - 37) / 23) +
    baseWeights.load * min 1 ((500 : ℝ) / 500) = 1 - 0.225 * Real.sqrt 3
  norm_num [baseWeights, max_def, min_def]
  ring

/-- C8: at inputs coilOffsetDeg 30, chargeRateC 2, tempC 60, load_mA 500 with
no factors, the returned efficiency is 0.87 (the rounding of cos 30°), the
rate, temperature and load sub-risks are all 1, the returned score is 0.61,
and the status is AMBER. -/
theorem C8_concrete_scenario :
    (simulate ⟨30, 2, 60, 500⟩ none).telemetry.efficiency = 0.87 ∧
    rateRisk ⟨30, 2, 60, 500⟩ = 1 ∧
    tempRisk ⟨30, 2, 60, 500⟩ = 1 ∧
    loadRisk ⟨30, 2, 60, 500⟩ = 1 ∧
    (simulate ⟨30, 2, 60, 500⟩ none).score = 0.61 ∧
    (simulate ⟨30, 2, 60, 500⟩ none).status = Status.AMBER := by
  obtain ⟨hlo, hhi⟩ := sqrt3_bounds
  refine ⟨?_, ?_, ?_, ?_, ?_, ?_⟩
  · show round2 (efficiencyOf ⟨30, 2, 60, 500⟩) = 0.87
    rw [efficiencyOf_c8, @round2_eq_of (Real.sqrt 3 / 2) 87 (by push_cast; linarith)
      (by push_cast; linarith)]
    norm_num
  · show max 0 ((2 : ℝ) - 1) = 1
    norm_num [max_def]
  · show max 0 (((60 : ℝ) - 37) / 23) = 1
    norm_num [max_def]
  · show min 1 ((500 : ℝ) / 500) = 1
    norm_num [min_def]
  · show round2 (rawScore ⟨30, 2, 60, 500⟩ none) = 0.61
    rw [rawScore_c8, @round2_eq_of (1 - 0.225 * Real.sqrt 3) 61 (by push_cast; linarith)
      (by push_cast; linarith)]
    norm_num
  · show statusOf (rawScore ⟨30, 2, 60, 500⟩ none) = Status.AMBER
    rw [rawScore_c8]
    unfold statusOf
    rw [if_neg (by simp only [ge_iff_le, not_le]; linarith), if_pos (by
      show (1 : ℝ) - 0.225 * Real.sqrt 3 ≥ 0.35
      linarith)]

/-- Witness for C7 at a negative from, a to below it and a negative step. -/
theorem C7_sweep_clamping_witness :
    clampTo (clampFrom (some (-5))) (some (-7)) = clampFrom (some (-5)) ∧
    clampStep (some (-2)) = 1 ∧
    computeSweep ⟨5, 1, 37, 200⟩ none (clampFrom (some (-5)))
      (clampTo (clampFrom (some (-5))) (some (-7))) (clampStep (some (-2))) ≠ [] := by
  obtain ⟨-, -, h3, -, h5, -, h7⟩ :=
    C7_sweep_clamping (some (-5)) (some (-7)) (some (-2)) ⟨5, 1, 37, 200⟩ none
  refine ⟨h3 ?_, h5 (by norm_num [Option.getD_some]), h7⟩
  have hcf : clampFrom (some (-5)) = 0 := by
    unfold clampFrom
    rw [Option.getD_some]
    exact max_eq_left (by norm_num)
  rw [hcf, Option.getD_some]
  norm_num

end DevAnoTector
